import Mathlib

/-!
Shallow embedding of the resilient SSH client in `internal/ssh/ssh.go` of
aws-k8s-tester: connection establishment with a bounded dial loop,
command execution (`Run`) and file transfer (`Send`/`Download`) with a
per-key retry ledger, reconnect-on-failure, and per-call
timeout/cancellation contexts.

External effects (dial outcomes, command results, `scp` lookup, connect
success) are supplied by oracle functions indexed by attempt number.
Recursion that is unbounded in the source (the recursive retry of `Run`
and the inner reconnect loop) is made total with explicit fuel; a `none`
result means the fuel bound was reached, so divergence of the source
corresponds to `none` for every fuel.
-/

namespace AwsSSH

/-! ### The retry ledger: `retries map[string]int` (ssh.go line 66)

A Go map from string keys to `int` values, modelled as an association
list with unique keys maintained by construction. -/

abbrev Ledger := List (String × Int)

/-- Go map read `v, ok := m[k]`: `some v` when present, `none` when absent. -/
def Ledger.lookup : Ledger → String → Option Int
  | [], _ => none
  | (k, v) :: t, key => if k = key then some v else Ledger.lookup t key

/-- Go map membership test `_, ok := m[k]`. -/
def Ledger.holds (l : Ledger) (key : String) : Bool :=
  (l.lookup key).isSome

/-- Go map delete `delete(m, k)`. -/
def Ledger.erase (l : Ledger) (key : String) : Ledger :=
  l.filter (fun e => e.1 ≠ key)

/-- Go map write `m[k] = v`. -/
def Ledger.set (l : Ledger) (key : String) (v : Int) : Ledger :=
  (key, v) :: l.erase key

/-- Go map read with the zero value for a missing key: a bare `m[k]`
expression in Go yields `0` when `k` is absent. -/
def Ledger.getZ (l : Ledger) (key : String) : Int :=
  (l.lookup key).getD 0

/-- `sh.retries[key]--` (ssh.go lines 256, 362, 440). -/
def Ledger.decr (l : Ledger) (key : String) : Ledger :=
  l.set key (l.getZ key - 1)

/-- The ledger-seeding prologue shared by `Run`, `Send` and `Download`
(ssh.go lines 187-189, 301-303, 380-382):
`if _, ok := sh.retries[key]; !ok { sh.retries[key] = ret.retries }`. -/
def seedLedger (l : Ledger) (key : String) (r : Int) : Ledger :=
  if l.holds key then l else l.set key r

/-! ### Resolved per-call options

`Op` itself is declared in a sibling file of package `ssh` that is not in
the sources; its fields and defaults are taken from the resolution
literal `Op{verbose: true, retries: 0, retryInterval: time.Duration(0),
timeout: 0, envs: make(map[string]string)}` (ssh.go lines 183, 297, 376).
We model the already-resolved options (`applyOpts` applied). Durations
are in nanoseconds as Go `time.Duration` counts them. -/

structure Op where
  verbose : Bool
  retries : Int
  retryInterval : Nat
  timeout : Nat
  envs : List (String × String)
  deriving Repr, DecidableEq

/-- The defaults literal of ssh.go lines 183/297/376. -/
def defaultOp : Op :=
  { verbose := true, retries := 0, retryInterval := 0, timeout := 0, envs := [] }

/-! ### Connect: the bounded dial loop (ssh.go lines 97-136)

Constants from the source: `for i := 0; i < 15`, dial context
`WithTimeout(sh.ctx, 15*time.Second)`, `time.Sleep(5 * time.Second)`. -/

def dialMaxAttempts : Nat := 15
def dialTimeoutSec : Nat := 15
def dialSleepSec : Nat := 5

/-- Outcome of the dial loop. `outcome` is `.ok i` when attempt `i`
succeeded (the `break`), `.error e` when the loop was cancelled or all
attempts failed, in which case `e` is the last dial error (the `err`
still held after the loop). `conn` is the stored `sh.conn` after the
loop: `DialContext` assigns it on every attempt — the successful
attempt's connection, or `nil` after a failed attempt. `attempts` counts
dial attempts made and `sleepSec` the total seconds slept. -/
structure DialResult where
  outcome : Except String Nat
  conn : Option Nat
  attempts : Nat
  sleepSec : Nat
  deriving Repr

/-- The dial loop of `Connect` (ssh.go lines 97-133). `cancelled i` is
whether `sh.ctx.Done()` is ready at the top of iteration `i`; `dial i t`
is attempt `i`'s result under a `t`-second timeout, `none` for success.
`last` is the `err` variable entering the iteration, `conn` the current
`sh.conn`, `rem` the remaining iterations. -/
def dialLoop (cancelled : Nat → Bool) (dial : Nat → Nat → Option String) :
    Nat → Nat → Option String → Option Nat → DialResult
  | _, 0, last, conn => ⟨.error (last.getD ""), conn, 0, 0⟩
  | i, rem + 1, _last, conn =>
    if cancelled i then ⟨.error "stopped", conn, 0, 0⟩
    else
      match dial i dialTimeoutSec with
      | none => ⟨.ok i, some i, 1, 0⟩
      | some e =>
        let r := dialLoop cancelled dial (i + 1) rem (some e) none
        ⟨r.outcome, r.conn, r.attempts + 1, r.sleepSec + dialSleepSec⟩

/-- The full dial phase as `Connect` invokes it: 15 iterations starting
from attempt 0 with no prior error. -/
def connectDial (cancelled : Nat → Bool) (dial : Nat → Nat → Option String)
    (conn : Option Nat) : DialResult :=
  dialLoop cancelled dial 0 dialMaxAttempts none conn

/-! ### Per-call deadline contexts (ssh.go lines 218-224, 307-313, 386-392)

All three operations derive their context identically:
`timeout == 0` gives `context.WithCancel(sh.ctx)` (done exactly when the
client lifetime is), otherwise `context.WithTimeout(sh.ctx, timeout)`
(done when the lifetime is cancelled or the timeout elapses). Times are
instants on a discrete clock; `cancelAt` is when (if ever) the client
lifetime scope is cancelled. -/

def lifetimeDone (cancelAt : Option Nat) (t : Nat) : Bool :=
  match cancelAt with
  | some c => decide (c ≤ t)
  | none => false

def callCtxDone (cancelAt : Option Nat) (timeout start t : Nat) : Bool :=
  if timeout = 0 then lifetimeDone cancelAt t
  else lifetimeDone cancelAt t || decide (start + timeout ≤ t)

/-! ### Run: one execution attempt (ssh.go lines 193-240)

The attempt opens a session (`NewSession`), applies environments
(`Setenv`), then races the combined-output task against the derived
context. The environment oracle decides which of these outcomes attempt
number `n` produces. -/

/-- Which of the two `select` cases fires first (ssh.go lines 231-240). -/
inductive RaceOutcome where
  | ctxDone (ctxErr : String)
  | taskDone (out : Option String) (err : Option String)

/-- Outcome of one execution attempt of `Run`. -/
inductive AttemptOutcome where
  | sessionErr (e : String)
  | setenvErr (e : String)
  | race (r : RaceOutcome)

/-- Result of the attempt phase. `earlyReturn` marks the
`NewSession`/`Setenv` failure paths that `return nil, err` before the
retry protocol (ssh.go lines 196-198, 205-207, 212-214); `sessionClosed`
and `taskAwaited` record `ss.Close()` and `<-donec` in the `select`. -/
structure AttemptRes where
  earlyReturn : Bool
  sessionClosed : Bool
  taskAwaited : Bool
  out : Option String
  err : Option String
  deriving Repr, DecidableEq

/-- The attempt phase of `Run` (ssh.go lines 193-240). In the
`ctx.Done()` case the session is closed, the background task is awaited
(`<-donec`), and then `out, err = nil, ctx.Err()` discards its result. -/
def runAttempt : AttemptOutcome → AttemptRes
  | .sessionErr e => ⟨true, false, false, none, some e⟩
  | .setenvErr e => ⟨true, false, false, none, some e⟩
  | .race (.ctxDone ce) => ⟨false, true, true, none, some ce⟩
  | .race (.taskDone o e) => ⟨false, true, true, o, e⟩

/-! ### The failure protocol: reconnect loop and recursive retry
(ssh.go lines 249-266, 354-372, 432-450) -/

/-- The inner reconnect loop
`connErr := errors.New(""); for connErr != nil { sh.retries[key]--;
connErr = sh.Connect() }`: the ledger is decremented once per `Connect`
attempt, and the loop runs until a `Connect` succeeds. `connectOk j` is
the outcome of the `j`-th `Connect` invocation, `cf` the fuel bounding
this unbounded loop; `none` means no success within the fuel. Returns
the updated ledger and the next connect index. -/
def reconnectLoop (connectOk : Nat → Bool) (key : String) :
    Nat → Nat → Ledger → Option (Ledger × Nat)
  | _, 0, _ => none
  | j, cf + 1, led =>
    let led' := led.decr key
    if connectOk j then some (led', j + 1)
    else reconnectLoop connectOk key (j + 1) cf led'

/-- Oracles for one `Run` call chain: `attempt n` is the outcome of the
`n`-th execution attempt, `connectOk j` of the `j`-th reconnect
`Connect` invocation; `cfuel` bounds each inner reconnect loop. -/
structure RunEnv where
  attempt : Nat → AttemptOutcome
  connectOk : Nat → Bool
  cfuel : Nat

/-- Observable result of a `Run`/`Send`/`Download` call: returned output
and error, final ledger, and the oracle cursors after the call —
`connIdx` counts `Connect` invocations consumed (so an unchanged
`connIdx` means no reconnect was attempted), `attemptIdx` execution
attempts consumed. -/
structure RunOut where
  out : Option String
  err : Option String
  ledger : Ledger
  connIdx : Nat
  attemptIdx : Nat
  deriving Repr, DecidableEq

/-- `Run` (ssh.go lines 182-267), with explicit fuel for the recursive
retry. The key is `fmt.Sprintf("%s%s", sh.cfg.PublicDNSName, cmd)`; a
missing key is seeded with the requested `ret.retries`; on failure, a
nonzero ledger value triggers close + reconnect loop + recursive call;
`delete` runs whenever the returned `err` is nil. -/
def runAux (env : RunEnv) (dns cmd : String) (op : Op) :
    Nat → Nat → Nat → Ledger → Option RunOut
  | 0, _, _, _ => none
  | fuel + 1, aIdx, cIdx, led0 =>
    let key := dns ++ cmd
    let led := seedLedger led0 key op.retries
    let a := runAttempt (env.attempt aIdx)
    if a.earlyReturn then
      some ⟨a.out, a.err, led, cIdx, aIdx + 1⟩
    else
      match a.err with
      | none => some ⟨a.out, none, led.erase key, cIdx, aIdx + 1⟩
      | some e =>
        if led.getZ key ≠ 0 then
          match reconnectLoop env.connectOk key cIdx env.cfuel led with
          | none => none
          | some (led', cIdx') =>
            match runAux env dns cmd op fuel (aIdx + 1) cIdx' led' with
            | none => none
            | some r =>
              some { r with ledger := if r.err = none then r.ledger.erase key else r.ledger }
        else
          some ⟨a.out, some e, led, cIdx, aIdx + 1⟩

/-! ### Send and Download (ssh.go lines 296-373, 375-451)

Both shell out to `scp`; the call fails early (before any ledger
consultation for retry, but after seeding) if `LookPath` or `Chmod`
fails. The retry key is derived from the local path for both
directions. The remote path only enters the argument vector of the
external tool, given by `sendScpArgs`/`downloadScpArgs`. -/

def sendScpArgs (keyPath user dns localPath remotePath : String) : List String :=
  ["-oStrictHostKeyChecking=no", "-i", keyPath, localPath,
    user ++ "@" ++ dns ++ ":" ++ remotePath]

def downloadScpArgs (keyPath user dns remotePath localPath : String) : List String :=
  ["-oStrictHostKeyChecking=no", "-i", keyPath,
    user ++ "@" ++ dns ++ ":" ++ remotePath, localPath]

/-- Oracles for one `Send`/`Download` call chain: per attempt `n`, the
`LookPath("scp")` outcome (path or error), the `os.Chmod(keyPath, 0400)`
outcome (`none` = ok), and the external tool's combined output and
error; plus the reconnect oracles as in `RunEnv`. -/
structure XferEnv where
  lookPath : Nat → Except String String
  chmod : Nat → Option String
  scpRun : Nat → Option String × Option String
  connectOk : Nat → Bool
  cfuel : Nat

/-- `Send` (ssh.go lines 296-373). Key is
`fmt.Sprintf("%s%s", sh.cfg.PublicDNSName, localPath)` (line 300);
`LookPath`/`Chmod` failures `return nil, err` immediately (lines
315-325), after the seeding of lines 301-303. -/
def sendAux (env : XferEnv) (dns localPath : String) (op : Op) :
    Nat → Nat → Nat → Ledger → Option RunOut
  | 0, _, _, _ => none
  | fuel + 1, aIdx, cIdx, led0 =>
    let key := dns ++ localPath
    let led := seedLedger led0 key op.retries
    match env.lookPath aIdx with
    | .error e => some ⟨none, some e, led, cIdx, aIdx + 1⟩
    | .ok _ =>
      match env.chmod aIdx with
      | some e => some ⟨none, some e, led, cIdx, aIdx + 1⟩
      | none =>
        let o := (env.scpRun aIdx).1
        match (env.scpRun aIdx).2 with
        | none => some ⟨o, none, led.erase key, cIdx, aIdx + 1⟩
        | some e =>
          if led.getZ key ≠ 0 then
            match reconnectLoop env.connectOk key cIdx env.cfuel led with
            | none => none
            | some (led', cIdx') =>
              match sendAux env dns localPath op fuel (aIdx + 1) cIdx' led' with
              | none => none
              | some r =>
                some { r with ledger := if r.err = none then r.ledger.erase key else r.ledger }
          else
            some ⟨o, some e, led, cIdx, aIdx + 1⟩

/-- `Download` (ssh.go lines 375-451): same shape as `Send`, the key
also derived from the local path (line 379). -/
def downloadAux (env : XferEnv) (dns localPath : String) (op : Op) :
    Nat → Nat → Nat → Ledger → Option RunOut
  | 0, _, _, _ => none
  | fuel + 1, aIdx, cIdx, led0 =>
    let key := dns ++ localPath
    let led := seedLedger led0 key op.retries
    match env.lookPath aIdx with
    | .error e => some ⟨none, some e, led, cIdx, aIdx + 1⟩
    | .ok _ =>
      match env.chmod aIdx with
      | some e => some ⟨none, some e, led, cIdx, aIdx + 1⟩
      | none =>
        let o := (env.scpRun aIdx).1
        match (env.scpRun aIdx).2 with
        | none => some ⟨o, none, led.erase key, cIdx, aIdx + 1⟩
        | some e =>
          if led.getZ key ≠ 0 then
            match reconnectLoop env.connectOk key cIdx env.cfuel led with
            | none => none
            | some (led', cIdx') =>
              match downloadAux env dns localPath op fuel (aIdx + 1) cIdx' led' with
              | none => none
              | some r =>
                some { r with ledger := if r.err = none then r.ledger.erase key else r.ledger }
          else
            some ⟨o, some e, led, cIdx, aIdx + 1⟩

/-! ### Connect as a whole, with the stored channel state
(ssh.go lines 82-170) -/

/-- Oracles for one `Connect` call: key-file read and parse outcomes,
the dial-loop oracles, and the `NewClientConn` handshake outcome
(`none` = ok). -/
structure ConnectEnv where
  keyRead : Except String Unit
  keyParse : Except String Unit
  cancelled : Nat → Bool
  dial : Nat → Nat → Option String
  handshake : Option String

/-- The client's stored channel state: `sh.conn` (the dialed TCP
connection) and `sh.cli` (the handshaked client handle). -/
structure Channel where
  conn : Option Nat
  cli : Option Nat
  deriving Repr, DecidableEq

/-- `Connect` (ssh.go lines 82-170): read key, parse key, dial loop
(which overwrites `sh.conn` on every attempt), then the
`NewClientConn` handshake; only on handshake success is `sh.cli`
assigned (line 163). On handshake failure the function returns the
error with the dialed `sh.conn` still stored and `sh.cli` untouched. -/
def connectOp (env : ConnectEnv) (ch : Channel) : Except String Unit × Channel :=
  match env.keyRead with
  | .error e => (.error ("failed to read private key " ++ e), ch)
  | .ok _ =>
    match env.keyParse with
    | .error e => (.error ("failed to parse private key " ++ e), ch)
    | .ok _ =>
      let r := connectDial env.cancelled env.dial ch.conn
      match r.outcome with
      | .error e => (.error e, { ch with conn := r.conn })
      | .ok i =>
        match env.handshake with
        | some e => (.error e, { ch with conn := r.conn })
        | none => (.ok (), { conn := r.conn, cli := some i })

/-- The all-or-nothing channel invariant claimed by the specification:
either no connection and no client handle, or both present. -/
def allOrNothing (ch : Channel) : Bool :=
  (ch.conn = none && ch.cli = none) || (ch.conn.isSome && ch.cli.isSome)

/-! ### Calling Close / Run before Connect (ssh.go lines 70-80, 172-180,
193-198)

`New` leaves `sh.cancel`, `sh.conn` and `sh.cli` at their zero values
(nil). Per Go semantics, `sh.cancel()` on a nil function, `sh.conn.Close()`
on a nil interface, and `sh.cli.NewSession()` dereferencing a nil
pointer all panic at run time instead of returning an error. -/

structure ClientHandles where
  cancelSet : Bool
  conn : Option Nat
  cli : Option Nat
  deriving Repr, DecidableEq

/-- The handle state produced by `New` (ssh.go lines 70-80): only `cfg`,
`lg` and `retries` are initialised; `cancel`, `conn` and `cli` are nil. -/
def newClientHandles : ClientHandles := ⟨false, none, none⟩

/-- A Go call that either returns normally or panics. -/
inductive GoResult (α : Type) where
  | ok (a : α)
  | panicked (msg : String)
  deriving Repr, DecidableEq

/-- `Close` (ssh.go lines 172-180): calls `sh.cancel()` (panics when
nil), then `sh.conn.Close()` (panics when `sh.conn` is a nil
interface). -/
def closeOp (c : ClientHandles) : GoResult Unit :=
  if c.cancelSet then
    match c.conn with
    | none => .panicked "invalid memory address or nil pointer dereference"
    | some _ => .ok ()
  else .panicked "call of nil function"

/-- The session-opening step of `Run` (ssh.go lines 193-198):
`sh.cli.NewSession()` dereferences `sh.cli`, panicking when it is nil. -/
def newSessionOp (c : ClientHandles) : GoResult Unit :=
  match c.cli with
  | none => .panicked "invalid memory address or nil pointer dereference"
  | some _ => .ok ()

/-! ### Basic ledger lemmas -/

theorem Ledger.lookup_erase_self (l : Ledger) (key : String) :
    (l.erase key).lookup key = none := by
  induction l with
  | nil => rfl
  | cons e t ih =>
    by_cases h : e.1 = key
    · simpa [Ledger.erase, h] using ih
    · simpa [Ledger.erase, Ledger.lookup, h] using ih

theorem Ledger.lookup_erase_ne (l : Ledger) (key k : String) (h : k ≠ key) :
    (l.erase key).lookup k = l.lookup k := by
  induction l with
  | nil => rfl
  | cons e t ih =>
    by_cases he : e.1 = key
    · have hek : ¬ e.1 = k := by rw [he]; exact fun hk => h hk.symm
      have h1 : Ledger.erase (e :: t) key = Ledger.erase t key := by
        simp [Ledger.erase, List.filter_cons, he]
      rw [h1, ih]
      simp [Ledger.lookup, hek]
    · have h2 : Ledger.erase (e :: t) key = e :: Ledger.erase t key := by
        simp [Ledger.erase, List.filter_cons, he]
      rw [h2]
      by_cases hk : e.1 = k
      · simp [Ledger.lookup, hk]
      · simp [Ledger.lookup, hk, ih]

theorem Ledger.lookup_set_self (l : Ledger) (key : String) (v : Int) :
    (l.set key v).lookup key = some v := by
  simp [Ledger.set, Ledger.lookup]

theorem Ledger.holds_set_self (l : Ledger) (key : String) (v : Int) :
    (l.set key v).holds key = true := by
  simp [Ledger.holds, Ledger.lookup_set_self]

theorem Ledger.holds_decr_self (l : Ledger) (key : String) :
    (l.decr key).holds key = true := by
  simp [Ledger.decr, Ledger.holds_set_self]

theorem Ledger.getZ_decr_self (l : Ledger) (key : String) :
    (l.decr key).getZ key = l.getZ key - 1 := by
  simp [Ledger.decr, Ledger.getZ, Ledger.lookup_set_self]

theorem seedLedger_of_holds (l : Ledger) (key : String) (r : Int)
    (h : l.holds key = true) : seedLedger l key r = l := by
  simp [seedLedger, h]

theorem seedLedger_of_absent (l : Ledger) (key : String) (r : Int)
    (h : l.holds key = false) : seedLedger l key r = l.set key r := by
  simp [seedLedger, h]

/-! ### Dial-loop lemmas -/

theorem dialLoop_zero (c : Nat → Bool) (d : Nat → Nat → Option String)
    (i : Nat) (last : Option String) (conn : Option Nat) :
    dialLoop c d i 0 last conn = ⟨.error (last.getD ""), conn, 0, 0⟩ := rfl

theorem dialLoop_succ (c : Nat → Bool) (d : Nat → Nat → Option String)
    (i rem : Nat) (last : Option String) (conn : Option Nat) :
    dialLoop c d i (rem + 1) last conn =
      if c i then ⟨.error "stopped", conn, 0, 0⟩
      else
        match d i dialTimeoutSec with
        | none => ⟨.ok i, some i, 1, 0⟩
        | some e =>
          ⟨(dialLoop c d (i + 1) rem (some e) none).outcome,
           (dialLoop c d (i + 1) rem (some e) none).conn,
           (dialLoop c d (i + 1) rem (some e) none).attempts + 1,
           (dialLoop c d (i + 1) rem (some e) none).sleepSec + dialSleepSec⟩ := rfl

theorem dialLoop_attempts_le (c : Nat → Bool) (d : Nat → Nat → Option String) :
    ∀ rem i last conn, (dialLoop c d i rem last conn).attempts ≤ rem := by
  intro rem
  induction rem with
  | zero => intro i last conn; simp [dialLoop_zero]
  | succ n ih =>
    intro i last conn
    rw [dialLoop_succ]
    by_cases hc : c i = true
    · simp [hc]
    · rw [if_neg (by simp [hc])]
      cases hd : d i dialTimeoutSec with
      | none => simp
      | some e =>
        have := ih (i + 1) (some e) none
        simp only []
        omega

theorem dialLoop_all_fail (c : Nat → Bool) (d : Nat → Nat → Option String)
    (e : Nat → String) :
    ∀ n i last conn,
      (∀ j, i ≤ j → j < i + (n + 1) → c j = false) →
      (∀ j, i ≤ j → j < i + (n + 1) → d j dialTimeoutSec = some (e j)) →
      dialLoop c d i (n + 1) last conn =
        ⟨.error (e (i + n)), none, n + 1, dialSleepSec * (n + 1)⟩ := by
  intro n
  induction n with
  | zero =>
    intro i last conn hc hd
    have hc0 := hc i (le_refl i) (by omega)
    have hd0 := hd i (le_refl i) (by omega)
    rw [dialLoop_succ, if_neg (by simp [hc0]), hd0]
    simp [dialLoop_zero, dialSleepSec]
  | succ m ih =>
    intro i last conn hc hd
    have hc0 := hc i (le_refl i) (by omega)
    have hd0 := hd i (le_refl i) (by omega)
    have hrec := ih (i + 1) (some (e i)) none
      (fun j h1 h2 => hc j (by omega) (by omega))
      (fun j h1 h2 => hd j (by omega) (by omega))
    have hidx : i + 1 + m = i + (m + 1) := by omega
    rw [hidx] at hrec
    rw [dialLoop_succ, if_neg (by simp [hc0]), hd0]
    simp only [hrec, DialResult.mk.injEq, dialSleepSec]
    refine ⟨trivial, trivial, trivial, by ring⟩

theorem dialLoop_first_success (c : Nat → Bool) (d : Nat → Nat → Option String) :
    ∀ k i rem last conn, k < rem →
      (∀ j, i ≤ j → j ≤ i + k → c j = false) →
      (∀ j, i ≤ j → j < i + k → (d j dialTimeoutSec).isSome = true) →
      d (i + k) dialTimeoutSec = none →
      dialLoop c d i rem last conn =
        ⟨.ok (i + k), some (i + k), k + 1, dialSleepSec * k⟩ := by
  intro k
  induction k with
  | zero =>
    intro i rem last conn hrem hc hd hs
    cases rem with
    | zero => omega
    | succ n =>
      have hc0 := hc i (le_refl i) (by omega)
      rw [Nat.add_zero] at hs
      rw [dialLoop_succ, if_neg (by simp [hc0]), hs]
      simp
  | succ m ih =>
    intro i rem last conn hrem hc hd hs
    cases rem with
    | zero => omega
    | succ n =>
      have hc0 := hc i (le_refl i) (by omega)
      have hd0 := hd i (le_refl i) (by omega)
      obtain ⟨e, he⟩ := Option.isSome_iff_exists.mp hd0
      have hidx : i + 1 + m = i + (m + 1) := by omega
      have hrec := ih (i + 1) n (some e) none (by omega)
        (fun j h1 h2 => hc j (by omega) (by omega))
        (fun j h1 h2 => hd j (by omega) (by omega))
        (by rw [hidx]; exact hs)
      rw [hidx] at hrec
      rw [dialLoop_succ, if_neg (by simp [hc0]), he]
      simp only [hrec, DialResult.mk.injEq, dialSleepSec]
      refine ⟨trivial, trivial, trivial, by ring⟩

theorem dialLoop_ok_conn (c : Nat → Bool) (d : Nat → Nat → Option String) :
    ∀ rem i last conn v, (dialLoop c d i rem last conn).outcome = .ok v →
      (dialLoop c d i rem last conn).conn = some v := by
  intro rem
  induction rem with
  | zero => intro i last conn v h; simp [dialLoop_zero] at h
  | succ n ih =>
    intro i last conn v h
    rw [dialLoop_succ] at h ⊢
    by_cases hc : c i = true
    · rw [if_pos hc] at h; simp at h
    · rw [if_neg (by simp [hc])] at h ⊢
      cases hd : d i dialTimeoutSec with
      | none =>
        rw [hd] at h
        dsimp only at h ⊢
        injection h with h1
        rw [h1]
      | some e =>
        rw [hd] at h
        dsimp only at h ⊢
        exact ih (i + 1) (some e) none v h

theorem dialLoop_error_conn (c : Nat → Bool) (d : Nat → Nat → Option String) :
    ∀ rem i last (e : String),
      (dialLoop c d i rem last none).outcome = .error e →
      (dialLoop c d i rem last none).conn = none := by
  intro rem
  induction rem with
  | zero => intro i last e _; rfl
  | succ n ih =>
    intro i last e h
    rw [dialLoop_succ] at h ⊢
    by_cases hc : c i = true
    · rw [if_pos hc]
    · rw [if_neg (by simp [hc])] at h ⊢
      cases hd : d i dialTimeoutSec with
      | none => rw [hd] at h; dsimp only at h; simp at h
      | some e2 =>
        rw [hd] at h
        dsimp only at h ⊢
        exact ih (i + 1) (some e2) e h

/-- C4: `Connect` performs a bounded dial loop of at most 15 attempts,
each passed the 15-second per-attempt timeout; if all 15 attempts fail
(no cancellation) it returns the last attempt's dial error, and if
attempts 1-3 fail and attempt 4 succeeds it returns that success having
made 4 attempts and slept 3 x 5 seconds. -/
theorem connect_dial_bounded_last_error_c4 :
    (∀ (c : Nat → Bool) (d : Nat → Nat → Option String) conn,
       (connectDial c d conn).attempts ≤ dialMaxAttempts) ∧
    (∀ (c : Nat → Bool) (d : Nat → Nat → Option String) (e : Nat → String) conn,
       (∀ j, j < dialMaxAttempts → c j = false) →
       (∀ j, j < dialMaxAttempts → d j dialTimeoutSec = some (e j)) →
       (connectDial c d conn).outcome = .error (e 14)) ∧
    (∀ (c : Nat → Bool) (d : Nat → Nat → Option String) conn,
       (∀ j, j ≤ 3 → c j = false) →
       (∀ j, j < 3 → (d j dialTimeoutSec).isSome = true) →
       d 3 dialTimeoutSec = none →
       (connectDial c d conn).outcome = .ok 3 ∧
       (connectDial c d conn).attempts = 4 ∧
       (connectDial c d conn).sleepSec = 3 * dialSleepSec) := by
  refine ⟨?_, ?_, ?_⟩
  · intro c d conn
    exact dialLoop_attempts_le c d dialMaxAttempts 0 none conn
  · intro c d e conn hc hd
    have h := dialLoop_all_fail c d e 14 0 none conn
      (fun j h1 h2 => hc j (by simpa [dialMaxAttempts] using h2))
      (fun j h1 h2 => hd j (by simpa [dialMaxAttempts] using h2))
    simp only [connectDial, dialMaxAttempts]
    rw [show (15 : Nat) = 14 + 1 from rfl, h]
  · intro c d conn hc hd hs
    have h := dialLoop_first_success c d 3 0 dialMaxAttempts none conn
      (by simp [dialMaxAttempts])
      (fun j h1 h2 => hc j (by omega))
      (fun j h1 h2 => hd j (by omega))
      (by simpa using hs)
    simp only [connectDial]
    rw [h]
    refine ⟨rfl, rfl, by simp [dialSleepSec]⟩

/-- Witness for C4 at concrete oracles: with no cancellation,
attempts 1-3 refused and attempt 4 accepted, the dial phase succeeds at
index 3; with every attempt refused, it returns the refusal error. -/
theorem connect_dial_bounded_last_error_c4_witness :
    (connectDial (fun _ => false)
      (fun j _ => if j < 3 then some "connection refused" else none) none).outcome =
        .ok 3 ∧
    (connectDial (fun _ => false) (fun _ _ => some "connection refused") none).outcome =
        .error "connection refused" := by
  constructor
  · exact (connect_dial_bounded_last_error_c4.2.2 _ _ none
      (fun j _ => rfl)
      (fun j hj => by simp [hj])
      (by norm_num)).1
  · exact connect_dial_bounded_last_error_c4.2.1 _ _ (fun _ => "connection refused") none
      (fun j _ => rfl) (fun j _ => rfl)

/-- C8 counterexample: a `Connect` whose dial succeeds on the first
attempt but whose handshake is rejected returns the handshake error with
the dialed connection stored and no client handle — a partially
connected state, violating the claimed all-or-nothing invariant. -/
theorem connect_channel_c8_cex :
    allOrNothing (connectOp
      ⟨.ok (), .ok (), fun _ => false, fun _ _ => none,
        some "ssh: unable to authenticate"⟩ ⟨none, none⟩).2 = false := by
  rfl

/-- C8 amended: after a `Connect` that returns success the channel is
fully established (connection and client handle both present), and for
any `Connect` whose handshake step does not fail, a fresh client ends
all-or-nothing; only the handshake-failure path leaves the partial state
shown in the counterexample. -/
theorem connect_channel_c8_amended :
    (∀ (env : ConnectEnv) (ch : Channel), (connectOp env ch).1 = .ok () →
       (connectOp env ch).2.conn.isSome = true ∧
       (connectOp env ch).2.cli.isSome = true) ∧
    (∀ env : ConnectEnv, env.handshake = none →
       allOrNothing (connectOp env ⟨none, none⟩).2 = true) := by
  constructor
  · intro env ch hok
    obtain ⟨kr, kp, canc, dl, hsk⟩ := env
    cases kr with
    | error e => simp [connectOp] at hok
    | ok u =>
      cases kp with
      | error e => simp [connectOp] at hok
      | ok u2 =>
        simp only [connectOp] at hok ⊢
        cases hout : (connectDial canc dl ch.conn).outcome with
        | error e => simp [hout] at hok
        | ok i =>
          have hconn : (connectDial canc dl ch.conn).conn = some i :=
            dialLoop_ok_conn canc dl dialMaxAttempts 0 none ch.conn i hout
          cases hsk with
          | some e => simp [hout] at hok
          | none => simp [hout, hconn]
  · intro env hhs
    obtain ⟨kr, kp, canc, dl, hsk⟩ := env
    simp only at hhs
    subst hhs
    cases kr with
    | error e => simp [connectOp, allOrNothing]
    | ok u =>
      cases kp with
      | error e => simp [connectOp, allOrNothing]
      | ok u2 =>
        simp only [connectOp]
        cases hout : (connectDial canc dl (none : Option Nat)).outcome with
        | error e =>
          have hconn : (connectDial canc dl (none : Option Nat)).conn = none :=
            dialLoop_error_conn canc dl dialMaxAttempts 0 none e hout
          simp [hout, hconn, allOrNothing]
        | ok i =>
          have hconn : (connectDial canc dl (none : Option Nat)).conn = some i :=
            dialLoop_ok_conn canc dl dialMaxAttempts 0 none none i hout
          simp [hout, hconn, allOrNothing]

/-- Witness for the amended C8: a fully successful `Connect` (dial ok on
attempt 0, handshake ok) leaves the channel all-or-nothing. -/
theorem connect_channel_c8_amended_witness :
    allOrNothing (connectOp
      ⟨.ok (), .ok (), fun _ => false, fun _ _ => none, none⟩ ⟨none, none⟩).2 = true :=
  connect_channel_c8_amended.2 _ rfl

/-- C7: with `timeout = 0`, the per-call context derived by
`Run`/`Send`/`Download` imposes no independent deadline — it is done
exactly when the client lifetime is cancelled, and never if the lifetime
is never cancelled, regardless of the call's start time or how much time
passes. -/
theorem zero_timeout_no_deadline_c7 :
    (∀ (cancelAt : Option Nat) (start t : Nat),
       callCtxDone cancelAt 0 start t = lifetimeDone cancelAt t) ∧
    (∀ (start t : Nat), callCtxDone none 0 start t = false) := by
  constructor
  · intro cancelAt start t
    simp [callCtxDone]
  · intro start t
    simp [callCtxDone, lifetimeDone]

/-- Witness for C7 at concrete times: a lifetime cancelled at instant 3
makes a zero-timeout call's context done at instant 7, and a
never-cancelled lifetime leaves it pending at instant 1000000. -/
theorem zero_timeout_no_deadline_c7_witness :
    callCtxDone (some 3) 0 0 7 = lifetimeDone (some 3) 7 ∧
    callCtxDone none 0 0 1000000 = false :=
  ⟨zero_timeout_no_deadline_c7.1 (some 3) 0 7,
   zero_timeout_no_deadline_c7.2 0 1000000⟩

/-- C10: on a freshly created client (no `Connect` yet) both `Close` and
the session-opening step of `Run` panic — nil cancel function, nil
connection, nil client handle — rather than returning a not-connected
error; once connected (cancel, connection and client all present) both
proceed normally. -/
theorem close_run_before_connect_panics_c10 :
    closeOp newClientHandles = .panicked "call of nil function" ∧
    newSessionOp newClientHandles =
      .panicked "invalid memory address or nil pointer dereference" ∧
    (∀ c : ClientHandles, c.cancelSet = true → c.conn.isSome = true →
       c.cli.isSome = true → closeOp c = .ok () ∧ newSessionOp c = .ok ()) := by
  refine ⟨rfl, rfl, ?_⟩
  intro c h1 h2 h3
  cases hconn : c.conn with
  | none => simp [hconn] at h2
  | some v =>
    cases hcli : c.cli with
    | none => simp [hcli] at h3
    | some w => simp [closeOp, newSessionOp, h1, hconn, hcli]

/-- Witness for C10: a connected client's handles let `Close` and the
session-opening step return normally. -/
theorem close_run_before_connect_panics_c10_witness :
    closeOp ⟨true, some 0, some 0⟩ = .ok () ∧
    newSessionOp ⟨true, some 0, some 0⟩ = .ok () :=
  close_run_before_connect_panics_c10.2.2 ⟨true, some 0, some 0⟩ rfl rfl rfl

/-! ### Retry-protocol lemmas -/

theorem runAttempt_early_err (o : AttemptOutcome) :
    (runAttempt o).earlyReturn = true → ∃ e, (runAttempt o).err = some e := by
  cases o with
  | sessionErr e => intro _; exact ⟨e, rfl⟩
  | setenvErr e => intro _; exact ⟨e, rfl⟩
  | race r =>
    cases r with
    | ctxDone ce => intro _; exact ⟨ce, rfl⟩
    | taskDone o2 e2 => intro h; simp [runAttempt] at h

theorem reconnectLoop_holds (co : Nat → Bool) (key : String) :
    ∀ cf j led led' j', reconnectLoop co key j cf led = some (led', j') →
      led'.holds key = true := by
  intro cf
  induction cf with
  | zero => intro j led led' j' h; simp [reconnectLoop] at h
  | succ cf ih =>
    intro j led led' j' h
    simp only [reconnectLoop] at h
    by_cases hc : co j = true
    · rw [if_pos hc] at h
      injection h with h1
      simp only [Prod.mk.injEq] at h1
      rw [← h1.1]
      exact Ledger.holds_decr_self _ _
    · rw [if_neg hc] at h
      exact ih (j + 1) (led.decr key) led' j' h

theorem runAux_success_ledger (env : RunEnv) (dns cmd : String) (op : Op) :
    ∀ fuel aIdx cIdx led r, runAux env dns cmd op fuel aIdx cIdx led = some r →
      r.err = none → r.ledger.lookup (dns ++ cmd) = none := by
  intro fuel aIdx cIdx led r hrun herr
  cases fuel with
  | zero => simp [runAux] at hrun
  | succ fuel =>
    simp only [runAux] at hrun
    by_cases he : (runAttempt (env.attempt aIdx)).earlyReturn = true
    · rw [if_pos he] at hrun
      obtain ⟨e, hee⟩ := runAttempt_early_err _ he
      rw [hee] at hrun
      injection hrun with h1
      rw [← h1] at herr
      simp at herr
    · rw [if_neg he] at hrun
      cases haerr : (runAttempt (env.attempt aIdx)).err with
      | none =>
        rw [haerr] at hrun
        dsimp only at hrun
        injection hrun with h1
        rw [← h1]
        exact Ledger.lookup_erase_self _ _
      | some e =>
        rw [haerr] at hrun
        dsimp only at hrun
        by_cases hbz : (seedLedger led (dns ++ cmd) op.retries).getZ (dns ++ cmd) ≠ 0
        · rw [if_pos hbz] at hrun
          cases hrc : reconnectLoop env.connectOk (dns ++ cmd) cIdx env.cfuel
              (seedLedger led (dns ++ cmd) op.retries) with
          | none => rw [hrc] at hrun; exact absurd hrun (by simp)
          | some p =>
            rw [hrc] at hrun
            obtain ⟨led2, cIdx2⟩ := p
            dsimp only at hrun
            cases hx : runAux env dns cmd op fuel (aIdx + 1) cIdx2 led2 with
            | none => rw [hx] at hrun; exact absurd hrun (by simp)
            | some r2 =>
              rw [hx] at hrun
              dsimp only at hrun
              injection hrun with h1
              rw [← h1] at herr ⊢
              dsimp only at herr ⊢
              rw [if_pos herr]
              exact Ledger.lookup_erase_self _ _
        · rw [if_neg hbz] at hrun
          injection hrun with h1
          rw [← h1] at herr
          simp at herr

theorem sendAux_success_ledger (env : XferEnv) (dns lp : String) (op : Op) :
    ∀ fuel aIdx cIdx led r, sendAux env dns lp op fuel aIdx cIdx led = some r →
      r.err = none → r.ledger.lookup (dns ++ lp) = none := by
  intro fuel aIdx cIdx led r hrun herr
  cases fuel with
  | zero => simp [sendAux] at hrun
  | succ fuel =>
    simp only [sendAux] at hrun
    cases hlp : env.lookPath aIdx with
    | error e =>
      rw [hlp] at hrun
      dsimp only at hrun
      injection hrun with h1
      rw [← h1] at herr
      simp at herr
    | ok p =>
      rw [hlp] at hrun
      dsimp only at hrun
      cases hch : env.chmod aIdx with
      | some e =>
        rw [hch] at hrun
        dsimp only at hrun
        injection hrun with h1
        rw [← h1] at herr
        simp at herr
      | none =>
        rw [hch] at hrun
        dsimp only at hrun
        cases hscp : (env.scpRun aIdx).2 with
        | none =>
          rw [hscp] at hrun
          dsimp only at hrun
          injection hrun with h1
          rw [← h1]
          exact Ledger.lookup_erase_self _ _
        | some e =>
          rw [hscp] at hrun
          dsimp only at hrun
          by_cases hbz : (seedLedger led (dns ++ lp) op.retries).getZ (dns ++ lp) ≠ 0
          · rw [if_pos hbz] at hrun
            cases hrc : reconnectLoop env.connectOk (dns ++ lp) cIdx env.cfuel
                (seedLedger led (dns ++ lp) op.retries) with
            | none => rw [hrc] at hrun; exact absurd hrun (by simp)
            | some p2 =>
              rw [hrc] at hrun
              obtain ⟨led2, cIdx2⟩ := p2
              dsimp only at hrun
              cases hx : sendAux env dns lp op fuel (aIdx + 1) cIdx2 led2 with
              | none => rw [hx] at hrun; exact absurd hrun (by simp)
              | some r2 =>
                rw [hx] at hrun
                dsimp only at hrun
                injection hrun with h1
                rw [← h1] at herr ⊢
                dsimp only at herr ⊢
                rw [if_pos herr]
                exact Ledger.lookup_erase_self _ _
          · rw [if_neg hbz] at hrun
            injection hrun with h1
            rw [← h1] at herr
            simp at herr

theorem downloadAux_success_ledger (env : XferEnv) (dns lp : String) (op : Op) :
    ∀ fuel aIdx cIdx led r, downloadAux env dns lp op fuel aIdx cIdx led = some r →
      r.err = none → r.ledger.lookup (dns ++ lp) = none := by
  intro fuel aIdx cIdx led r hrun herr
  cases fuel with
  | zero => simp [downloadAux] at hrun
  | succ fuel =>
    simp only [downloadAux] at hrun
    cases hlp : env.lookPath aIdx with
    | error e =>
      rw [hlp] at hrun
      dsimp only at hrun
      injection hrun with h1
      rw [← h1] at herr
      simp at herr
    | ok p =>
      rw [hlp] at hrun
      dsimp only at hrun
      cases hch : env.chmod aIdx with
      | some e =>
        rw [hch] at hrun
        dsimp only at hrun
        injection hrun with h1
        rw [← h1] at herr
        simp at herr
      | none =>
        rw [hch] at hrun
        dsimp only at hrun
        cases hscp : (env.scpRun aIdx).2 with
        | none =>
          rw [hscp] at hrun
          dsimp only at hrun
          injection hrun with h1
          rw [← h1]
          exact Ledger.lookup_erase_self _ _
        | some e =>
          rw [hscp] at hrun
          dsimp only at hrun
          by_cases hbz : (seedLedger led (dns ++ lp) op.retries).getZ (dns ++ lp) ≠ 0
          · rw [if_pos hbz] at hrun
            cases hrc : reconnectLoop env.connectOk (dns ++ lp) cIdx env.cfuel
                (seedLedger led (dns ++ lp) op.retries) with
            | none => rw [hrc] at hrun; exact absurd hrun (by simp)
            | some p2 =>
              rw [hrc] at hrun
              obtain ⟨led2, cIdx2⟩ := p2
              dsimp only at hrun
              cases hx : downloadAux env dns lp op fuel (aIdx + 1) cIdx2 led2 with
              | none => rw [hx] at hrun; exact absurd hrun (by simp)
              | some r2 =>
                rw [hx] at hrun
                dsimp only at hrun
                injection hrun with h1
                rw [← h1] at herr ⊢
                dsimp only at herr ⊢
                rw [if_pos herr]
                exact Ledger.lookup_erase_self _ _
          · rw [if_neg hbz] at hrun
            injection hrun with h1
            rw [← h1] at herr
            simp at herr

/-- A run environment whose first execution attempt succeeds with output
and every reconnect succeeds. -/
def envRunOk : RunEnv :=
  ⟨fun _ => .race (.taskDone (some "out") none), fun _ => true, 1⟩

/-- C5: every `Run`, `Send` or `Download` call that returns success
leaves no retry-ledger entry for its key: the `delete` on the nil-error
path (ssh.go lines 263-265, 369-371, 447-449) runs on every successful
return, including returns from the recursive retry. -/
theorem success_clears_ledger_c5 :
    (∀ (env : RunEnv) (dns cmd : String) (op : Op) fuel aIdx cIdx led r,
       runAux env dns cmd op fuel aIdx cIdx led = some r → r.err = none →
       r.ledger.lookup (dns ++ cmd) = none) ∧
    (∀ (env : XferEnv) (dns lp : String) (op : Op) fuel aIdx cIdx led r,
       sendAux env dns lp op fuel aIdx cIdx led = some r → r.err = none →
       r.ledger.lookup (dns ++ lp) = none) ∧
    (∀ (env : XferEnv) (dns lp : String) (op : Op) fuel aIdx cIdx led r,
       downloadAux env dns lp op fuel aIdx cIdx led = some r → r.err = none →
       r.ledger.lookup (dns ++ lp) = none) :=
  ⟨fun env dns cmd op => runAux_success_ledger env dns cmd op,
   fun env dns lp op => sendAux_success_ledger env dns lp op,
   fun env dns lp op => downloadAux_success_ledger env dns lp op⟩

/-- Witness for C5: a concrete successful `Run` whose key held a stale
entry with budget 2; after the call the entry is gone. -/
theorem success_clears_ledger_c5_witness :
    (RunOut.mk (some "out") none [] 0 1).ledger.lookup ("host" ++ "cmd") = none :=
  success_clears_ledger_c5.1 envRunOk "host" "cmd" defaultOp 1 0 0
    [("hostcmd", 2)] (RunOut.mk (some "out") none [] 0 1) (by rfl) rfl

/-- A run environment whose every execution attempt fails with an exit
error and every reconnect succeeds on its first attempt. -/
def envCmdFail : RunEnv :=
  ⟨fun _ => .race (.taskDone none (some "exit status 1")), fun _ => true, 1⟩

/-- C1 amended: a `Run` with `retries = 0` on a fresh key returns the
execution failure immediately with no reconnect attempt (`connIdx`
unchanged), but the ledger entry for the key — seeded with 0 at the
start of the call, before any failure — remains afterwards, because the
`delete` runs only when the returned error is nil. -/
theorem run_zero_retries_c1_amended (env : RunEnv) (dns cmd : String) (op : Op)
    (fuel aIdx cIdx : Nat) (led : Ledger) (e : String)
    (hr : op.retries = 0)
    (habs : led.holds (dns ++ cmd) = false)
    (hfail : (runAttempt (env.attempt aIdx)).err = some e) :
    runAux env dns cmd op (fuel + 1) aIdx cIdx led =
      some ⟨(runAttempt (env.attempt aIdx)).out, some e,
            led.set (dns ++ cmd) 0, cIdx, aIdx + 1⟩ ∧
    (led.set (dns ++ cmd) 0).lookup (dns ++ cmd) = some 0 := by
  have hseed : seedLedger led (dns ++ cmd) op.retries = led.set (dns ++ cmd) 0 := by
    rw [seedLedger_of_absent _ _ _ habs, hr]
  refine ⟨?_, Ledger.lookup_set_self _ _ _⟩
  simp only [runAux, hseed]
  by_cases he : (runAttempt (env.attempt aIdx)).earlyReturn = true
  · rw [if_pos he, hfail]
  · rw [if_neg he, hfail]
    dsimp only
    rw [if_neg (fun hne => hne (by simp [Ledger.getZ, Ledger.lookup_set_self]))]

/-- C1 counterexample: a concrete `Run` with the default options
(`retries = 0`) whose command fails: after the call the ledger still
contains the entry for the key, with value 0, contradicting the claim
that no entry remains. -/
theorem run_zero_retries_c1_cex :
    (runAux envCmdFail "host" "cmd" defaultOp 1 0 0 []).map
        (fun r => r.ledger.lookup ("host" ++ "cmd")) = some (some 0) := by
  rfl

/-- Witness for the amended C1 at the counterexample's input. -/
theorem run_zero_retries_c1_amended_witness :
    runAux envCmdFail "host" "cmd" defaultOp 1 0 0 [] =
      some ⟨none, some "exit status 1", Ledger.set [] ("host" ++ "cmd") 0, 0, 1⟩ :=
  (run_zero_retries_c1_amended envCmdFail "host" "cmd" defaultOp 0 0 0 []
    "exit status 1" rfl rfl rfl).1

/-- A transfer environment where the `scp` executable is never found in
the search path. -/
def envScpMissing : XferEnv :=
  ⟨fun _ => .error "executable file not found in PATH", fun _ => none,
   fun _ => (none, none), fun _ => true, 1⟩

/-- C3 amended: when `Send` cannot find the secure-copy tool, the lookup
error is returned immediately with no reconnect attempt (`connIdx`
unchanged) — but the ledger entry for the key is not untouched: it was
seeded with the requested budget at the start of the call, before the
tool lookup, and remains afterwards. -/
theorem send_lookpath_failure_c3_amended (env : XferEnv) (dns lp : String) (op : Op)
    (fuel aIdx cIdx : Nat) (led : Ledger) (e : String)
    (habs : led.holds (dns ++ lp) = false)
    (hlp : env.lookPath aIdx = .error e) :
    sendAux env dns lp op (fuel + 1) aIdx cIdx led =
      some ⟨none, some e, led.set (dns ++ lp) op.retries, cIdx, aIdx + 1⟩ ∧
    (led.set (dns ++ lp) op.retries).lookup (dns ++ lp) = some op.retries := by
  refine ⟨?_, Ledger.lookup_set_self _ _ _⟩
  simp only [sendAux]
  rw [seedLedger_of_absent _ _ _ habs, hlp]

/-- C3 counterexample: a concrete `Send` with `retries = 1` whose tool
lookup fails: after the call the ledger holds the entry for the key with
value 1 — it was seeded, contradicting the claim that the entry is never
seeded on this path. -/
theorem send_lookpath_failure_c3_cex :
    (sendAux envScpMissing "host" "file" { defaultOp with retries := 1 } 1 0 0 []).map
        (fun r => r.ledger.lookup ("host" ++ "file")) = some (some 1) := by
  rfl

/-- Witness for the amended C3 at the counterexample's input. -/
theorem send_lookpath_failure_c3_amended_witness :
    sendAux envScpMissing "host" "file" { defaultOp with retries := 1 } 1 0 0 [] =
      some ⟨none, some "executable file not found in PATH",
            Ledger.set [] ("host" ++ "file") 1, 0, 1⟩ :=
  (send_lookpath_failure_c3_amended envScpMissing "host" "file"
    { defaultOp with retries := 1 } 0 0 0 [] "executable file not found in PATH"
    rfl rfl).1

/-- A run environment where cancellation fires on the first attempt and
the retried attempt completes with output. -/
def envCancelThenOk : RunEnv :=
  ⟨fun n => if n = 0 then .race (.ctxDone "context deadline exceeded")
            else .race (.taskDone (some "hi") none),
   fun _ => true, 1⟩

/-- C6 amended: when the deadline or lifetime cancellation fires before
the command task completes, the session is forcibly closed, the
background task is awaited and its result discarded, and the attempt
yields nil output with the cancellation error; this is what the call
returns when the ledger budget for the key is zero at that point (with a
nonzero budget the failure protocol retries and the call returns the
retry's result instead). -/
theorem cancellation_race_c6_amended :
    (∀ ce, runAttempt (.race (.ctxDone ce)) = ⟨false, true, true, none, some ce⟩) ∧
    (∀ (env : RunEnv) (dns cmd : String) (op : Op) (fuel aIdx cIdx : Nat)
       (led : Ledger) (ce : String),
       env.attempt aIdx = .race (.ctxDone ce) →
       (seedLedger led (dns ++ cmd) op.retries).getZ (dns ++ cmd) = 0 →
       runAux env dns cmd op (fuel + 1) aIdx cIdx led =
         some ⟨none, some ce, seedLedger led (dns ++ cmd) op.retries, cIdx, aIdx + 1⟩) := by
  constructor
  · intro ce; rfl
  · intro env dns cmd op fuel aIdx cIdx led ce ha hz
    simp only [runAux]
    rw [ha]
    simp [runAttempt, hz]

/-- C6 counterexample: a `Run` with `retries = 1` whose first attempt is
interrupted by its deadline; the reconnect and retry succeed, and the
call returns output `"hi"` with nil error — not nil output with a
cancellation error as the claim states for every such call. -/
theorem cancellation_race_c6_cex :
    runAux envCancelThenOk "host" "cmd" { defaultOp with retries := 1 } 2 0 0 [] =
      some ⟨some "hi", none, [], 1, 2⟩ := by
  rfl

/-- Witness for the amended C6: with the default zero budget, a
cancelled attempt makes the call return nil output and the cancellation
error. -/
theorem cancellation_race_c6_amended_witness :
    runAux ⟨fun _ => .race (.ctxDone "context canceled"), fun _ => true, 1⟩
        "host" "cmd" defaultOp 1 0 0 [] =
      some ⟨none, some "context canceled",
            seedLedger [] ("host" ++ "cmd") 0, 0, 1⟩ :=
  (cancellation_race_c6_amended.2
    ⟨fun _ => .race (.ctxDone "context canceled"), fun _ => true, 1⟩
    "host" "cmd" defaultOp 0 0 0 [] "context canceled" rfl (by rfl))

/-- A transfer environment whose tool lookup and chmod succeed, whose
external tool always fails, and whose every reconnect succeeds. -/
def envXferFail : XferEnv :=
  ⟨fun _ => .ok "scp", fun _ => none, fun _ => (none, some "exit status 1"),
   fun _ => true, 1⟩

theorem runAux_retries_invariant (env : RunEnv) (dns cmd : String)
    (op : Op) (r1 r2 : Int) :
    ∀ fuel aIdx cIdx led, led.holds (dns ++ cmd) = true →
      runAux env dns cmd { op with retries := r1 } fuel aIdx cIdx led =
      runAux env dns cmd { op with retries := r2 } fuel aIdx cIdx led := by
  intro fuel
  induction fuel with
  | zero => intro aIdx cIdx led hh; rfl
  | succ fuel ih =>
    intro aIdx cIdx led hh
    simp only [runAux]
    rw [seedLedger_of_holds _ _ _ hh, seedLedger_of_holds _ _ _ hh]
    by_cases he : (runAttempt (env.attempt aIdx)).earlyReturn = true
    · rw [if_pos he, if_pos he]
    · rw [if_neg he, if_neg he]
      cases haerr : (runAttempt (env.attempt aIdx)).err with
      | none => rfl
      | some e =>
        dsimp only
        by_cases hbz : led.getZ (dns ++ cmd) ≠ 0
        · rw [if_pos hbz, if_pos hbz]
          cases hrc : reconnectLoop env.connectOk (dns ++ cmd) cIdx env.cfuel led with
          | none => rfl
          | some p =>
            obtain ⟨led2, cIdx2⟩ := p
            dsimp only
            rw [ih (aIdx + 1) cIdx2 led2
              (reconnectLoop_holds env.connectOk (dns ++ cmd) env.cfuel cIdx
                led led2 cIdx2 hrc)]
        · rw [if_neg hbz, if_neg hbz]

theorem sendAux_retries_invariant (env : XferEnv) (dns lp : String)
    (op : Op) (r1 r2 : Int) :
    ∀ fuel aIdx cIdx led, led.holds (dns ++ lp) = true →
      sendAux env dns lp { op with retries := r1 } fuel aIdx cIdx led =
      sendAux env dns lp { op with retries := r2 } fuel aIdx cIdx led := by
  intro fuel
  induction fuel with
  | zero => intro aIdx cIdx led hh; rfl
  | succ fuel ih =>
    intro aIdx cIdx led hh
    simp only [sendAux]
    rw [seedLedger_of_holds _ _ _ hh, seedLedger_of_holds _ _ _ hh]
    cases hlp : env.lookPath aIdx with
    | error e => rfl
    | ok p =>
      dsimp only
      cases hch : env.chmod aIdx with
      | some e => rfl
      | none =>
        dsimp only
        cases hscp : (env.scpRun aIdx).2 with
        | none => rfl
        | some e =>
          dsimp only
          by_cases hbz : led.getZ (dns ++ lp) ≠ 0
          · rw [if_pos hbz, if_pos hbz]
            cases hrc : reconnectLoop env.connectOk (dns ++ lp) cIdx env.cfuel led with
            | none => rfl
            | some p2 =>
              obtain ⟨led2, cIdx2⟩ := p2
              dsimp only
              rw [ih (aIdx + 1) cIdx2 led2
                (reconnectLoop_holds env.connectOk (dns ++ lp) env.cfuel cIdx
                  led led2 cIdx2 hrc)]
          · rw [if_neg hbz, if_neg hbz]

theorem downloadAux_retries_invariant (env : XferEnv) (dns lp : String)
    (op : Op) (r1 r2 : Int) :
    ∀ fuel aIdx cIdx led, led.holds (dns ++ lp) = true →
      downloadAux env dns lp { op with retries := r1 } fuel aIdx cIdx led =
      downloadAux env dns lp { op with retries := r2 } fuel aIdx cIdx led := by
  intro fuel
  induction fuel with
  | zero => intro aIdx cIdx led hh; rfl
  | succ fuel ih =>
    intro aIdx cIdx led hh
    simp only [downloadAux]
    rw [seedLedger_of_holds _ _ _ hh, seedLedger_of_holds _ _ _ hh]
    cases hlp : env.lookPath aIdx with
    | error e => rfl
    | ok p =>
      dsimp only
      cases hch : env.chmod aIdx with
      | some e => rfl
      | none =>
        dsimp only
        cases hscp : (env.scpRun aIdx).2 with
        | none => rfl
        | some e =>
          dsimp only
          by_cases hbz : led.getZ (dns ++ lp) ≠ 0
          · rw [if_pos hbz, if_pos hbz]
            cases hrc : reconnectLoop env.connectOk (dns ++ lp) cIdx env.cfuel led with
            | none => rfl
            | some p2 =>
              obtain ⟨led2, cIdx2⟩ := p2
              dsimp only
              rw [ih (aIdx + 1) cIdx2 led2
                (reconnectLoop_holds env.connectOk (dns ++ lp) env.cfuel cIdx
                  led led2 cIdx2 hrc)]
          · rw [if_neg hbz, if_neg hbz]

/-- C9: for every `Run`, `Send` or `Download` call whose key already has
a ledger entry, the call's own requested `retries` option is ignored:
the seeding step is a no-op for a held key and the requested value is
used nowhere else, so the whole call's behaviour is invariant in it —
only the pre-existing entry decides whether any retry occurs. -/
theorem preexisting_entry_ignores_retries_c9 :
    (∀ (env : RunEnv) (dns cmd : String) (op : Op) (r1 r2 : Int)
       fuel aIdx cIdx led, led.holds (dns ++ cmd) = true →
       runAux env dns cmd { op with retries := r1 } fuel aIdx cIdx led =
       runAux env dns cmd { op with retries := r2 } fuel aIdx cIdx led) ∧
    (∀ (env : XferEnv) (dns lp : String) (op : Op) (r1 r2 : Int)
       fuel aIdx cIdx led, led.holds (dns ++ lp) = true →
       sendAux env dns lp { op with retries := r1 } fuel aIdx cIdx led =
       sendAux env dns lp { op with retries := r2 } fuel aIdx cIdx led) ∧
    (∀ (env : XferEnv) (dns lp : String) (op : Op) (r1 r2 : Int)
       fuel aIdx cIdx led, led.holds (dns ++ lp) = true →
       downloadAux env dns lp { op with retries := r1 } fuel aIdx cIdx led =
       downloadAux env dns lp { op with retries := r2 } fuel aIdx cIdx led) :=
  ⟨runAux_retries_invariant, sendAux_retries_invariant,
   downloadAux_retries_invariant⟩

/-- Witness for C9: with a stale zero-budget entry for the key, a call
requesting 0 retries and one requesting 7 behave identically, for each
of `Run`, `Send` and `Download`. -/
theorem preexisting_entry_ignores_retries_c9_witness :
    (runAux envCmdFail "host" "cmd" { defaultOp with retries := 0 } 1 0 0
        [("hostcmd", 0)] =
     runAux envCmdFail "host" "cmd" { defaultOp with retries := 7 } 1 0 0
        [("hostcmd", 0)]) ∧
    (sendAux envXferFail "host" "file" { defaultOp with retries := 0 } 1 0 0
        [("hostfile", 0)] =
     sendAux envXferFail "host" "file" { defaultOp with retries := 7 } 1 0 0
        [("hostfile", 0)]) ∧
    (downloadAux envXferFail "host" "file" { defaultOp with retries := 0 } 1 0 0
        [("hostfile", 0)] =
     downloadAux envXferFail "host" "file" { defaultOp with retries := 7 } 1 0 0
        [("hostfile", 0)]) :=
  ⟨preexisting_entry_ignores_retries_c9.1 envCmdFail "host" "cmd" defaultOp 0 7
    1 0 0 [("hostcmd", 0)] rfl,
   preexisting_entry_ignores_retries_c9.2.1 envXferFail "host" "file" defaultOp 0 7
    1 0 0 [("hostfile", 0)] rfl,
   preexisting_entry_ignores_retries_c9.2.2 envXferFail "host" "file" defaultOp 0 7
    1 0 0 [("hostfile", 0)] rfl⟩

theorem reconnectLoop_succ (co : Nat → Bool) (key : String) (j cf : Nat)
    (led : Ledger) :
    reconnectLoop co key j (cf + 1) led =
      if co j then some (led.decr key, j + 1)
      else reconnectLoop co key (j + 1) cf (led.decr key) := rfl

theorem runAux_first_try_total (env : RunEnv) (dns cmd : String) (op : Op)
    (hco : ∀ j, env.connectOk j = true) (hcf : 1 ≤ env.cfuel) :
    ∀ fuel aIdx cIdx led,
      0 ≤ (seedLedger led (dns ++ cmd) op.retries).getZ (dns ++ cmd) →
      ((seedLedger led (dns ++ cmd) op.retries).getZ (dns ++ cmd)).toNat < fuel →
      (runAux env dns cmd op fuel aIdx cIdx led).isSome = true := by
  intro fuel
  induction fuel with
  | zero => intro aIdx cIdx led hge hlt; omega
  | succ fuel ih =>
    intro aIdx cIdx led hge hlt
    simp only [runAux]
    by_cases he : (runAttempt (env.attempt aIdx)).earlyReturn = true
    · rw [if_pos he]; rfl
    · rw [if_neg he]
      cases haerr : (runAttempt (env.attempt aIdx)).err with
      | none => rfl
      | some e =>
        dsimp only
        by_cases hbz : (seedLedger led (dns ++ cmd) op.retries).getZ (dns ++ cmd) ≠ 0
        · rw [if_pos hbz]
          obtain ⟨cf, hcf2⟩ : ∃ cf, env.cfuel = cf + 1 := ⟨env.cfuel - 1, by omega⟩
          have hrc : reconnectLoop env.connectOk (dns ++ cmd) cIdx env.cfuel
              (seedLedger led (dns ++ cmd) op.retries) =
              some ((seedLedger led (dns ++ cmd) op.retries).decr (dns ++ cmd),
                cIdx + 1) := by
            rw [hcf2, reconnectLoop_succ, if_pos (hco cIdx)]
          rw [hrc]
          dsimp only
          have hholds : ((seedLedger led (dns ++ cmd) op.retries).decr
              (dns ++ cmd)).holds (dns ++ cmd) = true :=
            Ledger.holds_decr_self _ _
          have hrec := ih (aIdx + 1) (cIdx + 1)
            ((seedLedger led (dns ++ cmd) op.retries).decr (dns ++ cmd))
            (by rw [seedLedger_of_holds _ _ _ hholds, Ledger.getZ_decr_self]; omega)
            (by rw [seedLedger_of_holds _ _ _ hholds, Ledger.getZ_decr_self]; omega)
          cases hx : runAux env dns cmd op fuel (aIdx + 1) (cIdx + 1)
              ((seedLedger led (dns ++ cmd) op.retries).decr (dns ++ cmd)) with
          | none => rw [hx] at hrec; simp at hrec
          | some r2 => rfl
        · rw [if_neg hbz]; rfl

theorem sendAux_first_try_total (env : XferEnv) (dns lp : String) (op : Op)
    (hco : ∀ j, env.connectOk j = true) (hcf : 1 ≤ env.cfuel) :
    ∀ fuel aIdx cIdx led,
      0 ≤ (seedLedger led (dns ++ lp) op.retries).getZ (dns ++ lp) →
      ((seedLedger led (dns ++ lp) op.retries).getZ (dns ++ lp)).toNat < fuel →
      (sendAux env dns lp op fuel aIdx cIdx led).isSome = true := by
  intro fuel
  induction fuel with
  | zero => intro aIdx cIdx led hge hlt; omega
  | succ fuel ih =>
    intro aIdx cIdx led hge hlt
    simp only [sendAux]
    cases hlp : env.lookPath aIdx with
    | error e => rfl
    | ok p =>
      dsimp only
      cases hch : env.chmod aIdx with
      | some e => rfl
      | none =>
        dsimp only
        cases hscp : (env.scpRun aIdx).2 with
        | none => rfl
        | some e =>
          dsimp only
          by_cases hbz : (seedLedger led (dns ++ lp) op.retries).getZ (dns ++ lp) ≠ 0
          · rw [if_pos hbz]
            obtain ⟨cf, hcf2⟩ : ∃ cf, env.cfuel = cf + 1 := ⟨env.cfuel - 1, by omega⟩
            have hrc : reconnectLoop env.connectOk (dns ++ lp) cIdx env.cfuel
                (seedLedger led (dns ++ lp) op.retries) =
                some ((seedLedger led (dns ++ lp) op.retries).decr (dns ++ lp),
                  cIdx + 1) := by
              rw [hcf2, reconnectLoop_succ, if_pos (hco cIdx)]
            rw [hrc]
            dsimp only
            have hholds : ((seedLedger led (dns ++ lp) op.retries).decr
                (dns ++ lp)).holds (dns ++ lp) = true :=
              Ledger.holds_decr_self _ _
            have hrec := ih (aIdx + 1) (cIdx + 1)
              ((seedLedger led (dns ++ lp) op.retries).decr (dns ++ lp))
              (by rw [seedLedger_of_holds _ _ _ hholds, Ledger.getZ_decr_self]; omega)
              (by rw [seedLedger_of_holds _ _ _ hholds, Ledger.getZ_decr_self]; omega)
            cases hx : sendAux env dns lp op fuel (aIdx + 1) (cIdx + 1)
                ((seedLedger led (dns ++ lp) op.retries).decr (dns ++ lp)) with
            | none => rw [hx] at hrec; simp at hrec
            | some r2 => rfl
          · rw [if_neg hbz]; rfl

theorem downloadAux_first_try_total (env : XferEnv) (dns lp : String) (op : Op)
    (hco : ∀ j, env.connectOk j = true) (hcf : 1 ≤ env.cfuel) :
    ∀ fuel aIdx cIdx led,
      0 ≤ (seedLedger led (dns ++ lp) op.retries).getZ (dns ++ lp) →
      ((seedLedger led (dns ++ lp) op.retries).getZ (dns ++ lp)).toNat < fuel →
      (downloadAux env dns lp op fuel aIdx cIdx led).isSome = true := by
  intro fuel
  induction fuel with
  | zero => intro aIdx cIdx led hge hlt; omega
  | succ fuel ih =>
    intro aIdx cIdx led hge hlt
    simp only [downloadAux]
    cases hlp : env.lookPath aIdx with
    | error e => rfl
    | ok p =>
      dsimp only
      cases hch : env.chmod aIdx with
      | some e => rfl
      | none =>
        dsimp only
        cases hscp : (env.scpRun aIdx).2 with
        | none => rfl
        | some e =>
          dsimp only
          by_cases hbz : (seedLedger led (dns ++ lp) op.retries).getZ (dns ++ lp) ≠ 0
          · rw [if_pos hbz]
            obtain ⟨cf, hcf2⟩ : ∃ cf, env.cfuel = cf + 1 := ⟨env.cfuel - 1, by omega⟩
            have hrc : reconnectLoop env.connectOk (dns ++ lp) cIdx env.cfuel
                (seedLedger led (dns ++ lp) op.retries) =
                some ((seedLedger led (dns ++ lp) op.retries).decr (dns ++ lp),
                  cIdx + 1) := by
              rw [hcf2, reconnectLoop_succ, if_pos (hco cIdx)]
            rw [hrc]
            dsimp only
            have hholds : ((seedLedger led (dns ++ lp) op.retries).decr
                (dns ++ lp)).holds (dns ++ lp) = true :=
              Ledger.holds_decr_self _ _
            have hrec := ih (aIdx + 1) (cIdx + 1)
              ((seedLedger led (dns ++ lp) op.retries).decr (dns ++ lp))
              (by rw [seedLedger_of_holds _ _ _ hholds, Ledger.getZ_decr_self]; omega)
              (by rw [seedLedger_of_holds _ _ _ hholds, Ledger.getZ_decr_self]; omega)
            cases hx : downloadAux env dns lp op fuel (aIdx + 1) (cIdx + 1)
                ((seedLedger led (dns ++ lp) op.retries).decr (dns ++ lp)) with
            | none => rw [hx] at hrec; simp at hrec
            | some r2 => rfl
          · rw [if_neg hbz]; rfl

/-- C2 amended: for each of `Run`, `Send` and `Download`, the retry
recursion terminates provided the reconnect decrements never skip the
budget past zero — in particular whenever every reconnect cycle's
`Connect` succeeds on its first attempt, each cycle decrements the
budget by exactly one, so a call whose seeded budget is a nonnegative
`b` returns within `b + 1` recursive levels, bottoming out at a success
or at budget zero. (The decrement is once per `Connect` attempt, so a
cycle needing several attempts can drive the budget negative; the guard
is `!= 0` and retrying then continues as long as failures persist — see
the counterexample, which exercises all three operations.) -/
theorem retry_recursion_c2_amended :
    (∀ (env : RunEnv) (dns cmd : String) (op : Op),
       (∀ j, env.connectOk j = true) → 1 ≤ env.cfuel →
       ∀ fuel aIdx cIdx led,
         0 ≤ (seedLedger led (dns ++ cmd) op.retries).getZ (dns ++ cmd) →
         ((seedLedger led (dns ++ cmd) op.retries).getZ (dns ++ cmd)).toNat < fuel →
         (runAux env dns cmd op fuel aIdx cIdx led).isSome = true) ∧
    (∀ (env : XferEnv) (dns lp : String) (op : Op),
       (∀ j, env.connectOk j = true) → 1 ≤ env.cfuel →
       ∀ fuel aIdx cIdx led,
         0 ≤ (seedLedger led (dns ++ lp) op.retries).getZ (dns ++ lp) →
         ((seedLedger led (dns ++ lp) op.retries).getZ (dns ++ lp)).toNat < fuel →
         (sendAux env dns lp op fuel aIdx cIdx led).isSome = true) ∧
    (∀ (env : XferEnv) (dns lp : String) (op : Op),
       (∀ j, env.connectOk j = true) → 1 ≤ env.cfuel →
       ∀ fuel aIdx cIdx led,
         0 ≤ (seedLedger led (dns ++ lp) op.retries).getZ (dns ++ lp) →
         ((seedLedger led (dns ++ lp) op.retries).getZ (dns ++ lp)).toNat < fuel →
         (downloadAux env dns lp op fuel aIdx cIdx led).isSome = true) :=
  ⟨runAux_first_try_total, sendAux_first_try_total, downloadAux_first_try_total⟩

/-- Witness for the amended C2: budget 1, operation failing once then
the retried call failing too, every reconnect succeeding first try —
`Run`, `Send` and `Download` all return within fuel 2. -/
theorem retry_recursion_c2_amended_witness :
    (runAux envCmdFail "host" "cmd" { defaultOp with retries := 1 } 2 0 0 []).isSome
      = true ∧
    (sendAux envXferFail "host" "file" { defaultOp with retries := 1 } 2 0 0 []).isSome
      = true ∧
    (downloadAux envXferFail "host" "file" { defaultOp with retries := 1 }
      2 0 0 []).isSome = true :=
  ⟨retry_recursion_c2_amended.1 envCmdFail "host" "cmd"
    { defaultOp with retries := 1 } (fun j => rfl) (Nat.le_refl 1)
    2 0 0 [] (by decide) (by decide),
   retry_recursion_c2_amended.2.1 envXferFail "host" "file"
    { defaultOp with retries := 1 } (fun j => rfl) (Nat.le_refl 1)
    2 0 0 [] (by decide) (by decide),
   retry_recursion_c2_amended.2.2 envXferFail "host" "file"
    { defaultOp with retries := 1 } (fun j => rfl) (Nat.le_refl 1)
    2 0 0 [] (by decide) (by decide)⟩

/-- A run environment whose command always fails and whose `Connect`
succeeds only on every second attempt, so each reconnect cycle makes two
attempts and decrements the ledger twice. -/
def envC2Diverge : RunEnv :=
  ⟨fun _ => .race (.taskDone none (some "connection reset")),
   fun j => decide (j % 2 = 1), 2⟩

/-- The call never returns within any fuel bound: divergence of the
source recursion. -/
def runDiverges (env : RunEnv) (dns cmd : String) (op : Op) (aIdx cIdx : Nat)
    (led : Ledger) : Prop :=
  ∀ fuel, runAux env dns cmd op fuel aIdx cIdx led = none

theorem c2_diverge_aux :
    ∀ fuel aIdx cIdx led, cIdx % 2 = 0 →
      (seedLedger led ("host" ++ "cmd") 1).getZ ("host" ++ "cmd") % 2 = 1 →
      runAux envC2Diverge "host" "cmd" { defaultOp with retries := 1 }
        fuel aIdx cIdx led = none := by
  intro fuel
  induction fuel with
  | zero => intro aIdx cIdx led h1 h2; rfl
  | succ fuel ih =>
    intro aIdx cIdx led hcev hodd
    have ha : runAttempt (envC2Diverge.attempt aIdx) =
        ⟨false, true, true, none, some "connection reset"⟩ := rfl
    simp only [runAux]
    rw [ha]
    rw [if_neg (by simp)]
    dsimp only
    have hne : (seedLedger led ("host" ++ "cmd") 1).getZ ("host" ++ "cmd") ≠ 0 := by
      intro h0; rw [h0] at hodd; norm_num at hodd
    rw [if_pos hne]
    have h1 : envC2Diverge.connectOk cIdx = false := by
      simp only [envC2Diverge]
      simp
      omega
    have h2 : envC2Diverge.connectOk (cIdx + 1) = true := by
      simp only [envC2Diverge]
      simp
      omega
    have hrc : reconnectLoop envC2Diverge.connectOk ("host" ++ "cmd") cIdx 2
        (seedLedger led ("host" ++ "cmd") 1) =
        some (((seedLedger led ("host" ++ "cmd") 1).decr ("host" ++ "cmd")).decr
          ("host" ++ "cmd"), cIdx + 2) := by
      rw [show (2 : Nat) = 1 + 1 from rfl, reconnectLoop_succ, if_neg (by simp [h1]),
        show (1 : Nat) = 0 + 1 from rfl, reconnectLoop_succ, if_pos h2]
    rw [show envC2Diverge.cfuel = 2 from rfl, hrc]
    dsimp only
    have hh3 : (((seedLedger led ("host" ++ "cmd") 1).decr ("host" ++ "cmd")).decr
        ("host" ++ "cmd")).holds ("host" ++ "cmd") = true :=
      Ledger.holds_decr_self _ _
    have h3 : (seedLedger (((seedLedger led ("host" ++ "cmd") 1).decr
        ("host" ++ "cmd")).decr ("host" ++ "cmd")) ("host" ++ "cmd") 1).getZ
        ("host" ++ "cmd") % 2 = 1 := by
      rw [seedLedger_of_holds _ _ _ hh3, Ledger.getZ_decr_self, Ledger.getZ_decr_self]
      omega
    rw [ih (aIdx + 1) (cIdx + 2) _ (by omega) h3]

/-- A transfer environment whose tool lookup and chmod succeed, whose
external tool always fails, and whose `Connect` succeeds only on every
second attempt, so each reconnect cycle decrements the ledger twice. -/
def envC2XferDiverge : XferEnv :=
  ⟨fun _ => .ok "scp", fun _ => none, fun _ => (none, some "connection reset"),
   fun j => decide (j % 2 = 1), 2⟩

/-- The `Send` call never returns within any fuel bound. -/
def sendDiverges (env : XferEnv) (dns lp : String) (op : Op) (aIdx cIdx : Nat)
    (led : Ledger) : Prop :=
  ∀ fuel, sendAux env dns lp op fuel aIdx cIdx led = none

/-- The `Download` call never returns within any fuel bound. -/
def downloadDiverges (env : XferEnv) (dns lp : String) (op : Op) (aIdx cIdx : Nat)
    (led : Ledger) : Prop :=
  ∀ fuel, downloadAux env dns lp op fuel aIdx cIdx led = none

theorem c2_send_diverge_aux :
    ∀ fuel aIdx cIdx led, cIdx % 2 = 0 →
      (seedLedger led ("host" ++ "file") 1).getZ ("host" ++ "file") % 2 = 1 →
      sendAux envC2XferDiverge "host" "file" { defaultOp with retries := 1 }
        fuel aIdx cIdx led = none := by
  intro fuel
  induction fuel with
  | zero => intro aIdx cIdx led h1 h2; rfl
  | succ fuel ih =>
    intro aIdx cIdx led hcev hodd
    simp only [sendAux]
    rw [show envC2XferDiverge.lookPath aIdx = Except.ok "scp" from rfl]
    dsimp only
    rw [show envC2XferDiverge.chmod aIdx = none from rfl]
    dsimp only
    rw [show (envC2XferDiverge.scpRun aIdx).2 = some "connection reset" from rfl]
    dsimp only
    have hne : (seedLedger led ("host" ++ "file") 1).getZ ("host" ++ "file") ≠ 0 := by
      intro h0; rw [h0] at hodd; norm_num at hodd
    rw [if_pos hne]
    have h1 : envC2XferDiverge.connectOk cIdx = false := by
      simp only [envC2XferDiverge]
      simp
      omega
    have h2 : envC2XferDiverge.connectOk (cIdx + 1) = true := by
      simp only [envC2XferDiverge]
      simp
      omega
    have hrc : reconnectLoop envC2XferDiverge.connectOk ("host" ++ "file") cIdx 2
        (seedLedger led ("host" ++ "file") 1) =
        some (((seedLedger led ("host" ++ "file") 1).decr ("host" ++ "file")).decr
          ("host" ++ "file"), cIdx + 2) := by
      rw [show (2 : Nat) = 1 + 1 from rfl, reconnectLoop_succ, if_neg (by simp [h1]),
        show (1 : Nat) = 0 + 1 from rfl, reconnectLoop_succ, if_pos h2]
    rw [show envC2XferDiverge.cfuel = 2 from rfl, hrc]
    dsimp only
    have hh3 : (((seedLedger led ("host" ++ "file") 1).decr ("host" ++ "file")).decr
        ("host" ++ "file")).holds ("host" ++ "file") = true :=
      Ledger.holds_decr_self _ _
    have h3 : (seedLedger (((seedLedger led ("host" ++ "file") 1).decr
        ("host" ++ "file")).decr ("host" ++ "file")) ("host" ++ "file") 1).getZ
        ("host" ++ "file") % 2 = 1 := by
      rw [seedLedger_of_holds _ _ _ hh3, Ledger.getZ_decr_self, Ledger.getZ_decr_self]
      omega
    rw [ih (aIdx + 1) (cIdx + 2) _ (by omega) h3]

theorem c2_download_diverge_aux :
    ∀ fuel aIdx cIdx led, cIdx % 2 = 0 →
      (seedLedger led ("host" ++ "file") 1).getZ ("host" ++ "file") % 2 = 1 →
      downloadAux envC2XferDiverge "host" "file" { defaultOp with retries := 1 }
        fuel aIdx cIdx led = none := by
  intro fuel
  induction fuel with
  | zero => intro aIdx cIdx led h1 h2; rfl
  | succ fuel ih =>
    intro aIdx cIdx led hcev hodd
    simp only [downloadAux]
    rw [show envC2XferDiverge.lookPath aIdx = Except.ok "scp" from rfl]
    dsimp only
    rw [show envC2XferDiverge.chmod aIdx = none from rfl]
    dsimp only
    rw [show (envC2XferDiverge.scpRun aIdx).2 = some "connection reset" from rfl]
    dsimp only
    have hne : (seedLedger led ("host" ++ "file") 1).getZ ("host" ++ "file") ≠ 0 := by
      intro h0; rw [h0] at hodd; norm_num at hodd
    rw [if_pos hne]
    have h1 : envC2XferDiverge.connectOk cIdx = false := by
      simp only [envC2XferDiverge]
      simp
      omega
    have h2 : envC2XferDiverge.connectOk (cIdx + 1) = true := by
      simp only [envC2XferDiverge]
      simp
      omega
    have hrc : reconnectLoop envC2XferDiverge.connectOk ("host" ++ "file") cIdx 2
        (seedLedger led ("host" ++ "file") 1) =
        some (((seedLedger led ("host" ++ "file") 1).decr ("host" ++ "file")).decr
          ("host" ++ "file"), cIdx + 2) := by
      rw [show (2 : Nat) = 1 + 1 from rfl, reconnectLoop_succ, if_neg (by simp [h1]),
        show (1 : Nat) = 0 + 1 from rfl, reconnectLoop_succ, if_pos h2]
    rw [show envC2XferDiverge.cfuel = 2 from rfl, hrc]
    dsimp only
    have hh3 : (((seedLedger led ("host" ++ "file") 1).decr ("host" ++ "file")).decr
        ("host" ++ "file")).holds ("host" ++ "file") = true :=
      Ledger.holds_decr_self _ _
    have h3 : (seedLedger (((seedLedger led ("host" ++ "file") 1).decr
        ("host" ++ "file")).decr ("host" ++ "file")) ("host" ++ "file") 1).getZ
        ("host" ++ "file") % 2 = 1 := by
      rw [seedLedger_of_holds _ _ _ hh3, Ledger.getZ_decr_self, Ledger.getZ_decr_self]
      omega
    rw [ih (aIdx + 1) (cIdx + 2) _ (by omega) h3]

/-- C2 counterexample: with a seeded budget of 1, an operation that
always fails and reconnect cycles that need two `Connect` attempts, the
budget goes 1, -1, -3, ... — it skips zero, the `!= 0` guard keeps
passing, and the retry recursion never bottoms out: `Run`, `Send` and
`Download` each return `none` at every fuel bound, refuting the claimed
termination for all three operations. -/
theorem retry_recursion_c2_cex :
    runDiverges envC2Diverge "host" "cmd" { defaultOp with retries := 1 } 0 0 [] ∧
    sendDiverges envC2XferDiverge "host" "file" { defaultOp with retries := 1 }
      0 0 [] ∧
    downloadDiverges envC2XferDiverge "host" "file" { defaultOp with retries := 1 }
      0 0 [] :=
  ⟨fun fuel => c2_diverge_aux fuel 0 0 [] rfl (by decide),
   fun fuel => c2_send_diverge_aux fuel 0 0 [] rfl (by decide),
   fun fuel => c2_download_diverge_aux fuel 0 0 [] rfl (by decide)⟩

end AwsSSH
